import Mathlib

set_option linter.all false

/- Shallow embedding of the fwf-rs fixed-width-file reader (src/reader.rs and
src/error.rs). A Rust String is modelled as the list of its characters
(Unicode scalar values); byte positions are recovered from the UTF-8 size of
each character. Rust usize arithmetic is modelled on Nat with overflow and
underflow made explicit where they can occur; a Rust panic (from an
out-of-range or non-boundary string slice, or from usize overflow in debug
builds) is modelled by the PanicOr wrapper. A Rust Range of byte indices is
modelled as a pair (start, stop). -/

/-- UTF-8 byte size of one character, as in Rust char len_utf8. -/
def utf8Len (c : Char) : Nat :=
  if c.toNat < 0x80 then 1
  else if c.toNat < 0x800 then 2
  else if c.toNat < 0x10000 then 3
  else 4

/-- Byte length of a line, as Rust String len. -/
def byteLen (line : List Char) : Nat := (line.map utf8Len).sum

/-- Characters paired with their byte offsets, counted from a given offset. -/
def charIndicesFrom (off : Nat) : List Char → List (Nat × Char)
  | [] => []
  | c :: cs => (off, c) :: charIndicesFrom (off + utf8Len c) cs

/-- Rust str char_indices: each character of the slice with its byte offset. -/
def charIndices (line : List Char) : List (Nat × Char) := charIndicesFrom 0 line

/-- Rust str is_char_boundary: the byte index is the total length or the
offset of some character. -/
def isCharBoundary (line : List Char) (i : Nat) : Bool :=
  i == byteLen line || (charIndices line).any (fun p => p.1 == i)

/-- Rust slicing of the suffix starting at byte index i. Returns none when i
is past the end or not on a character boundary, the cases in which Rust
panics. -/
def suffixFrom : List Char → Nat → Option (List Char)
  | l, 0 => some l
  | [], _ + 1 => none
  | c :: cs, i + 1 =>
    if utf8Len c ≤ i + 1 then suffixFrom cs (i + 1 - utf8Len c) else none

/-- ReaderError from src/error.rs. The payload of the Io variant is the
external io error and is not modelled. -/
inductive ReaderError where
  | IoError : ReaderError
  | EmptyLine : ReaderError
  | WidthMismatch : Nat → Nat → ReaderError
  deriving DecidableEq, Repr

deriving instance DecidableEq for Except

/-- Outcome of Rust code that may panic. -/
inductive PanicOr (α : Type) where
  | panic : PanicOr α
  | value : α → PanicOr α
  deriving DecidableEq, Repr

/-- FwfRecord from src/reader.rs: the owned line and the computed byte
ranges, one per configured width. -/
structure FwfRecord where
  line : List Char
  ranges : List (Nat × Nat)
  deriving DecidableEq, Repr

/-- Upper bound of usize values (64-bit target). -/
def usizeBound : Nat := 2 ^ 64

/-- The per-width loop of FwfRecord try_new (src/reader.rs lines 115-150):
a cursor-threaded traversal of the widths. rem is computed from the byte
length of the line; if the cursor has moved past the end the usize
subtraction underflows, modelled as a panic. In the Greater branch the code
slices line from the cursor, which panics off a character boundary, and then
looks up the w-th character of the slice; the cursor then advances by the
separator length in bytes, with usize overflow modelled as a panic. -/
def tokLoop (line : List Char) (sepLen : Nat) (flexible : Bool) :
    List Nat → Nat → PanicOr (Except ReaderError (List (Nat × Nat)))
  | [], _ => PanicOr.value (Except.ok [])
  | w :: ws, start =>
    if byteLen line < start then PanicOr.panic
    else
      let rem := byteLen line - start
      if rem < w then
        if flexible then
          match tokLoop line sepLen flexible ws (byteLen line) with
          | PanicOr.value (Except.ok rs) =>
              PanicOr.value (Except.ok ((start, byteLen line) :: rs))
          | other => other
        else PanicOr.value (Except.error (ReaderError.WidthMismatch start w))
      else if rem = w then
        match tokLoop line sepLen flexible ws (byteLen line) with
        | PanicOr.value (Except.ok rs) =>
            PanicOr.value (Except.ok ((start, byteLen line) :: rs))
        | other => other
      else
        match suffixFrom line start with
        | none => PanicOr.panic
        | some suf =>
          match (charIndices suf).get? w with
          | none => PanicOr.value (Except.error (ReaderError.WidthMismatch start w))
          | some iw =>
            let stop := start + iw.1
            if stop + sepLen < usizeBound then
              match tokLoop line sepLen flexible ws (stop + sepLen) with
              | PanicOr.value (Except.ok rs) =>
                  PanicOr.value (Except.ok ((start, stop) :: rs))
              | other => other
            else PanicOr.panic

/-- FwfRecord try_new (src/reader.rs lines 106-153): reject the empty line,
otherwise run the width loop from cursor 0 and package the ranges. -/
def FwfRecord.tryNew (line : List Char) (widths : List Nat) (sepLen : Nat)
    (flexible : Bool) : PanicOr (Except ReaderError FwfRecord) :=
  if line.isEmpty then PanicOr.value (Except.error ReaderError.EmptyLine)
  else
    match tokLoop line sepLen flexible widths 0 with
    | PanicOr.panic => PanicOr.panic
    | PanicOr.value (Except.error e) => PanicOr.value (Except.error e)
    | PanicOr.value (Except.ok rs) => PanicOr.value (Except.ok ⟨line, rs⟩)

/-- Rust String get over a byte range: some slice when the bounds are ordered
and both on character boundaries, none otherwise (never a panic). -/
def sliceGet (l : List Char) (s e : Nat) : Option (List Char) :=
  if decide (s ≤ e) && isCharBoundary l s && isCharBoundary l e then
    some (((charIndices l).filter (fun p => decide (s ≤ p.1) && decide (p.1 < e))).map
      Prod.snd)
  else none

/-- FwfRecord get (src/reader.rs lines 154-159). -/
def FwfRecord.get (r : FwfRecord) (i : Nat) : Option (List Char) :=
  match r.ranges.get? i with
  | none => none
  | some p => sliceGet r.line p.1 p.2

/-- Unfolding of FwrFieldIter from a starting index, with fuel bounding the
number of steps; the iterator stops at the first absent field. -/
def iterFieldsFrom (r : FwfRecord) : Nat → Nat → List (List Char)
  | _, 0 => []
  | i, fuel + 1 =>
    match r.get i with
    | none => []
    | some s => s :: iterFieldsFrom r (i + 1) fuel

/-- The full field sequence produced by FwfRecord iter; ranges length plus
one steps of fuel always suffice since get is absent past the range list. -/
def FwfRecord.iterFields (r : FwfRecord) : List (List Char) :=
  iterFieldsFrom r 0 (r.ranges.length + 1)

/-- FwfRecordIter (src/reader.rs lines 73-79): the pending lines of the
source (each either a line or an io failure) together with the
configuration. -/
structure FwfRecordIter where
  reader : List (Except Unit (List Char))
  widths : List Nat
  separator_length : Nat
  flexible_width : Bool
  deriving DecidableEq, Repr

/-- The body of the Iterator impl for FwfRecordIter: an io failure becomes
the Io error, a line is tokenized independently of all earlier lines. -/
def processLine (widths : List Nat) (sepLen : Nat) (flexible : Bool) :
    Except Unit (List Char) → PanicOr (Except ReaderError FwfRecord)
  | Except.error _ => PanicOr.value (Except.error ReaderError.IoError)
  | Except.ok line => FwfRecord.tryNew line widths sepLen flexible

/-- FwfRecordIter next (src/reader.rs lines 87-96): none when the source is
exhausted, otherwise the processed head line and the advanced iterator. -/
def FwfRecordIter.next (it : FwfRecordIter) :
    Option (PanicOr (Except ReaderError FwfRecord) × FwfRecordIter) :=
  match it.reader with
  | [] => none
  | r :: rest =>
    some (processLine it.widths it.separator_length it.flexible_width r,
      { it with reader := rest })

/-- FwfFileReader (src/reader.rs lines 10-16), with the file modelled by the
sequence of lines its BufReader yields once opened. -/
structure FwfFileReader where
  file : List (Except Unit (List Char))
  widths : List Nat
  separator_length : Nat
  flexible_width : Bool
  has_header : Bool
  deriving DecidableEq, Repr

/-- FwfFileReader new (src/reader.rs lines 19-27). -/
def FwfFileReader.new (file : List (Except Unit (List Char)))
    (widths : List Nat) : FwfFileReader :=
  ⟨file, widths, 1, true, true⟩

/-- Setter for the separator length (src/reader.rs lines 29-32). -/
def FwfFileReader.with_separator_length (r : FwfFileReader) (s : Nat) :
    FwfFileReader :=
  { r with separator_length := s }

/-- Setter for the flexible width flag (src/reader.rs lines 34-37). -/
def FwfFileReader.with_flexible_width (r : FwfFileReader) (b : Bool) :
    FwfFileReader :=
  { r with flexible_width := b }

/-- Setter for the header flag (src/reader.rs lines 39-42). -/
def FwfFileReader.with_has_header (r : FwfFileReader) (b : Bool) :
    FwfFileReader :=
  { r with has_header := b }

/-- FwfFileReader header (src/reader.rs lines 44-57): when has_header is
set, pull the first line (EmptyLine when the file has none, Io when the pull
fails) and tokenize it; otherwise none without touching the file. -/
def FwfFileReader.header (r : FwfFileReader) :
    PanicOr (Except ReaderError (Option FwfRecord)) :=
  if r.has_header then
    match r.file with
    | [] => PanicOr.value (Except.error ReaderError.EmptyLine)
    | Except.error _ :: _ => PanicOr.value (Except.error ReaderError.IoError)
    | Except.ok line :: _ =>
      match FwfRecord.tryNew line r.widths r.separator_length r.flexible_width with
      | PanicOr.panic => PanicOr.panic
      | PanicOr.value (Except.error e) => PanicOr.value (Except.error e)
      | PanicOr.value (Except.ok rec) => PanicOr.value (Except.ok (some rec))
  else PanicOr.value (Except.ok none)

/-- FwfFileReader records (src/reader.rs lines 59-70): a fresh iterator over
the lines, discarding the first one when has_header is set. -/
def FwfFileReader.records (r : FwfFileReader) : FwfRecordIter :=
  ⟨if r.has_header then r.file.drop 1 else r.file,
    r.widths, r.separator_length, r.flexible_width⟩

example : FwfRecord.tryNew ['1', '2', '3', '4', '5', '6', '7', '8', '9']
    [3, 3, 3] 0 false
    = PanicOr.value (Except.ok ⟨['1', '2', '3', '4', '5', '6', '7', '8', '9'],
        [(0, 3), (3, 6), (6, 9)]⟩) := by decide

example : FwfRecord.tryNew ['1', '2', '3', '4', '5'] [3, 3, 3] 0 false
    = PanicOr.value (Except.error (ReaderError.WidthMismatch 3 3)) := by decide

example : FwfRecord.tryNew ['1', '2', '3', '4', '5', '6'] [3, 3, 3] 0 true
    = PanicOr.value (Except.ok ⟨['1', '2', '3', '4', '5', '6'],
        [(0, 3), (3, 6), (6, 6)]⟩) := by decide

example : FwfRecord.tryNew
    ['1', '2', '3', '-', '4', '5', '6', '-', '7', '8', '9'] [3, 3, 3] 1 false
    = PanicOr.value (Except.ok
        ⟨['1', '2', '3', '-', '4', '5', '6', '-', '7', '8', '9'],
          [(0, 3), (4, 7), (8, 11)]⟩) := by decide

/-- C1: the claim states that tokenization never panics for any line and any
configuration, with the remaining-length computation and the slice at the
cursor always well defined. Refuted at the line a•b with widths [1, 1] and
separator length 1: after the first field the cursor advances by one byte
into the three-byte character •, and the slice taken at the cursor in the
Greater branch is off a character boundary, which panics in Rust. -/
theorem C1_tokenize_panics :
    FwfRecord.tryNew ['a', '•', 'b'] [1, 1] 1 false = PanicOr.panic := by decide

/-- C2: the claim states that the remaining-input comparison is counted in
characters, so lines with equal character content produce equal field
ranges regardless of byte widths. Refuted: the line é (one character, two
bytes) with widths [1] fails with WidthMismatch 0 1 because the remaining
count is taken from the byte length, while the line a (one character, one
byte) with the same configuration succeeds with range (0, 1). -/
theorem C2_widths_counted_in_bytes :
    FwfRecord.tryNew ['é'] [1] 0 false
        = PanicOr.value (Except.error (ReaderError.WidthMismatch 0 1))
    ∧ FwfRecord.tryNew ['a'] [1] 0 false
        = PanicOr.value (Except.ok ⟨['a'], [(0, 1)]⟩) := by decide

/-- C3: the claim states that any line whose character length is exactly
sum of widths plus separators parses successfully with flexible_width off.
Refuted at the line aé with widths [2] and separator length 0: the
character length is exactly 2, yet tokenization fails with WidthMismatch 0 2
because the byte length 3 exceeds the width and no third character exists. -/
theorem C3_exact_char_length_rejected :
    (['a', 'é'] : List Char).length
        = ([2] : List Nat).sum + 0 * (([2] : List Nat).length - 1)
    ∧ FwfRecord.tryNew ['a', 'é'] [2] 0 false
        = PanicOr.value (Except.error (ReaderError.WidthMismatch 0 2)) := by decide

/-- C4: the claim states that with flexible_width on, a shortage of
remaining characters yields the remainder and empty trailing fields with no
error. Refuted at the line éé with widths [3]: only 2 characters remain,
fewer than 3, yet tokenization returns WidthMismatch 0 3 because the byte
length 4 routes the code into the Greater branch where the character lookup
comes up empty. -/
theorem C4_flexible_still_errors :
    (['é', 'é'] : List Char).length < 3
    ∧ FwfRecord.tryNew ['é', 'é'] [3] 0 true
        = PanicOr.value (Except.error (ReaderError.WidthMismatch 0 3)) := by decide

/-- C5: the claim states that with flexible_width off, fewer remaining
characters than the width always fails with WidthMismatch. Refuted at the
line é with widths [2]: only 1 character remains, fewer than 2, yet
tokenization succeeds with the range (0, 2) because the byte length 2
matches the width exactly. -/
theorem C5_strict_succeeds_despite_short_chars :
    (['é'] : List Char).length < 2
    ∧ FwfRecord.tryNew ['é'] [2] 0 false
        = PanicOr.value (Except.ok ⟨['é'], [(0, 2)]⟩) := by decide

/-- C6: tokenizing a zero-length line fails with EmptyLine for every
configuration, before any width is examined; the result is the same for all
widths, separator lengths and flexibility flags, and the header flag is not
consulted by the tokenizer at all. -/
theorem C6_empty_line_always (widths : List Nat) (sepLen : Nat) (flexible : Bool) :
    FwfRecord.tryNew [] widths sepLen flexible
        = PanicOr.value (Except.error ReaderError.EmptyLine) := rfl

/-- Witness for C6 at a concrete configuration. -/
theorem C6_empty_line_always_witness :
    FwfRecord.tryNew [] [3, 3, 3] 2 true
        = PanicOr.value (Except.error ReaderError.EmptyLine) :=
  C6_empty_line_always [3, 3, 3] 2 true

/-- C7: the claim states that every successful record has as many ranges as
widths, ordered, within bounds, and with both bounds on character
boundaries. Refuted at the line a• with widths [1, 2], separator length 1
and flexible_width on: tokenization succeeds with ranges (0, 1) and (2, 4),
but byte index 2 lies inside the three-byte character • and is not a
character boundary, so field access at index 1 is absent. -/
theorem C7_ok_range_off_char_boundary :
    FwfRecord.tryNew ['a', '•'] [1, 2] 1 true
        = PanicOr.value (Except.ok ⟨['a', '•'], [(0, 1), (2, 4)]⟩)
    ∧ isCharBoundary ['a', '•'] 2 = false
    ∧ FwfRecord.get ⟨['a', '•'], [(0, 1), (2, 4)]⟩ 1 = none := by decide

/-- C8: a per-line tokenization failure does not end or invalidate the
record iterator: each pull processes exactly the head line, independently of
every earlier line and of whether its processing failed, and the iterator
ends exactly when the line source is exhausted. -/
theorem C8_failure_does_not_end_stream (l1 l2 : Except Unit (List Char))
    (rest : List (Except Unit (List Char))) (widths : List Nat) (sepLen : Nat)
    (flexible : Bool) :
    (FwfRecordIter.mk (l1 :: l2 :: rest) widths sepLen flexible).next
        = some (processLine widths sepLen flexible l1,
            FwfRecordIter.mk (l2 :: rest) widths sepLen flexible)
    ∧ (FwfRecordIter.mk (l2 :: rest) widths sepLen flexible).next
        = some (processLine widths sepLen flexible l2,
            FwfRecordIter.mk rest widths sepLen flexible)
    ∧ (FwfRecordIter.mk [] widths sepLen flexible).next = none :=
  ⟨rfl, rfl, rfl⟩

/-- Witness for C8: an empty line (which fails with EmptyLine) followed by a
parseable line, which still yields a successful record on the next pull. -/
theorem C8_failure_does_not_end_stream_witness :
    (FwfRecordIter.mk [Except.ok [], Except.ok ['a']] [1] 0 false).next
        = some (processLine [1] 0 false (Except.ok []),
            FwfRecordIter.mk [Except.ok ['a']] [1] 0 false)
    ∧ (FwfRecordIter.mk [Except.ok ['a']] [1] 0 false).next
        = some (processLine [1] 0 false (Except.ok ['a']),
            FwfRecordIter.mk [] [1] 0 false)
    ∧ (FwfRecordIter.mk [] [1] 0 false).next = none :=
  C8_failure_does_not_end_stream (Except.ok []) (Except.ok ['a']) [] [1] 0 false

/-- C9: when the first line tokenizes to a record, a reader with the header
flag set exposes that record through header and its record iterator runs
over the remaining lines only, while a reader without the header flag
reports no header and yields the first line as an ordinary record on the
first pull. -/
theorem C9_header_vs_records (fileRest : List (Except Unit (List Char)))
    (firstLine : List Char) (widths : List Nat) (sepLen : Nat) (flexible : Bool)
    (rec : FwfRecord)
    (h : FwfRecord.tryNew firstLine widths sepLen flexible
      = PanicOr.value (Except.ok rec)) :
    (FwfFileReader.mk (Except.ok firstLine :: fileRest) widths sepLen flexible
        true).header
      = PanicOr.value (Except.ok (some rec))
    ∧ (FwfFileReader.mk (Except.ok firstLine :: fileRest) widths sepLen flexible
        true).records
      = FwfRecordIter.mk fileRest widths sepLen flexible
    ∧ (FwfFileReader.mk (Except.ok firstLine :: fileRest) widths sepLen flexible
        false).header
      = PanicOr.value (Except.ok none)
    ∧ (FwfFileReader.mk (Except.ok firstLine :: fileRest) widths sepLen flexible
        false).records
      = FwfRecordIter.mk (Except.ok firstLine :: fileRest) widths sepLen flexible
    ∧ ((FwfFileReader.mk (Except.ok firstLine :: fileRest) widths sepLen flexible
        false).records).next
      = some (PanicOr.value (Except.ok rec),
          FwfRecordIter.mk fileRest widths sepLen flexible) := by
  refine ⟨?_, rfl, rfl, rfl, ?_⟩
  · simp [FwfFileReader.header, h]
  · simp [FwfFileReader.records, FwfRecordIter.next, processLine, h]

/-- Witness for C9 at a concrete two-character first line and no further
lines. -/
theorem C9_header_vs_records_witness :
    (FwfFileReader.mk [Except.ok ['a', 'b']] [1, 1] 0 false true).header
      = PanicOr.value (Except.ok (some ⟨['a', 'b'], [(0, 1), (1, 2)]⟩))
    ∧ (FwfFileReader.mk [Except.ok ['a', 'b']] [1, 1] 0 false true).records
      = FwfRecordIter.mk [] [1, 1] 0 false
    ∧ (FwfFileReader.mk [Except.ok ['a', 'b']] [1, 1] 0 false false).header
      = PanicOr.value (Except.ok none)
    ∧ (FwfFileReader.mk [Except.ok ['a', 'b']] [1, 1] 0 false false).records
      = FwfRecordIter.mk [Except.ok ['a', 'b']] [1, 1] 0 false
    ∧ ((FwfFileReader.mk [Except.ok ['a', 'b']] [1, 1] 0 false false).records).next
      = some (PanicOr.value (Except.ok ⟨['a', 'b'], [(0, 1), (1, 2)]⟩),
          FwfRecordIter.mk [] [1, 1] 0 false) :=
  C9_header_vs_records [] ['a', 'b'] [1, 1] 0 false
    ⟨['a', 'b'], [(0, 1), (1, 2)]⟩ (by decide)

/-- C10: a fresh reader defaults to separator length 1, flexible width on
and header on, keeping its file and widths unchanged, and each setter
rewrites exactly its own field, leaving every other field of the reader as
it was. -/
theorem C10_defaults_and_setters (file : List (Except Unit (List Char)))
    (widths : List Nat) (r : FwfFileReader) (s : Nat) (b c : Bool) :
    FwfFileReader.new file widths = FwfFileReader.mk file widths 1 true true
    ∧ r.with_separator_length s
      = FwfFileReader.mk r.file r.widths s r.flexible_width r.has_header
    ∧ r.with_flexible_width b
      = FwfFileReader.mk r.file r.widths r.separator_length b r.has_header
    ∧ r.with_has_header c
      = FwfFileReader.mk r.file r.widths r.separator_length r.flexible_width c :=
  ⟨rfl, rfl, rfl, rfl⟩

/-- Witness for C10 at a concrete reader. -/
theorem C10_defaults_and_setters_witness :
    FwfFileReader.new [] [3] = FwfFileReader.mk [] [3] 1 true true
    ∧ (FwfFileReader.new [] [3]).with_separator_length 0
      = FwfFileReader.mk [] [3] 0 true true
    ∧ (FwfFileReader.new [] [3]).with_flexible_width false
      = FwfFileReader.mk [] [3] 1 false true
    ∧ (FwfFileReader.new [] [3]).with_has_header false
      = FwfFileReader.mk [] [3] 1 true false :=
  C10_defaults_and_setters [] [3] (FwfFileReader.new [] [3]) 0 false false
